import Mathlib

/-!
Verification development for the capture-har engine (src/lib/index.js).

The JavaScript source is shallowly embedded as executable Lean functions.
External collaborators (the `request` transport, Node's `url`, `querystring`,
`tough-cookie` and `content-type` modules) are modelled as a `Capabilities`
record of abstract functions plus a per-hop `RawExchange` record describing
what the transport delivered; the engine's own logic (body-size enforcement,
redirect decisions, HAR entry construction, the redirect recursion) is
translated line by line from the source.
-/

namespace CaptureHar

/-- Header values in a Node headers object: a plain string or an array of
strings (e.g. repeated `set-cookie`). -/
inductive HeaderVal where
  | one (v : String)
  | many (vs : List String)
  deriving Repr, DecidableEq

/-- Response body values as `request` delivers them: a string, a binary
Buffer (modelled as its byte list), or some other structured value whose
`JSON.stringify` rendering is the carried string. -/
inductive BodyValue where
  | str (s : String)
  | buf (bytes : List Nat)
  | json (stringified : String)
  deriving Repr, DecidableEq

/-- Transport-level or engine-raised error: the `message` and `code` fields
that src/lib/index.js reads off an Error object (lines 176-179). -/
structure TransportError where
  message : String
  code : String
  deriving Repr, DecidableEq

/-- Response object as the promise of `captureEntry` carries it: the fields
of the Node response that src/lib/index.js reads.  `requestHref` embeds
`response.request.uri` (the hop's own URL, used as base in line 56-57). -/
structure HttpResponse where
  statusCode : Int
  statusMessage : String
  httpVersion : Option String
  headers : List (String × HeaderVal)
  body : Option BodyValue
  requestHref : String
  deriving DecidableEq

/-- The `followRedirect` option: absent, a boolean, or a predicate over the
response (lines 287-298). -/
inductive FollowRedirect where
  | default
  | flag (b : Bool)
  | pred (f : HttpResponse → Bool)

/-- Heap of header objects.  JavaScript `requestConfig.headers` is a mutable
object shared by reference; `Object.assign({}, requestConfig, ...)`
(line 337) copies the reference, not the object.  A config holds an index
into this heap so that the sharing (and the in-place mutation of line 343)
is represented faithfully. -/
abbrev HeaderHeap := List (List (String × String))

/-- Caller-supplied request options: the fields of `requestConfig` that
src/lib/index.js reads.  `headersRef` points into the `HeaderHeap`. -/
structure RequestConfig where
  url : String
  method : String := "GET"
  headersRef : Option Nat := none
  body : Option String := none
  timeout : Option Nat := none
  followRedirect : FollowRedirect := .default
  maxRedirects : Option Nat := none

/-- HAR options after `buildHarConfig` normalization: `withContent` defaulted,
`maxContentLength = none` standing for the default `Infinity`. -/
structure HarConfig where
  withContent : Bool
  maxContentLength : Option Nat

/-- Caller-supplied HAR options before defaulting (lines 353-362). -/
structure HarConfigInput where
  withContent : Option Bool := none
  maxContentLength : Option Nat := none

/-- Parsed cookie as `tough.parse` returns it: the fields `buildHarCookie`
reads (lines 108-129).  `expires` is `some iso` exactly when the parsed
cookie carried a concrete `Date`; the ISO rendering is the collaborator's. -/
structure ToughCookie where
  key : String
  value : String
  httpOnly : Bool
  secure : Bool
  path : Option String := none
  domain : Option String := none
  expires : Option String := none

/-- External collaborator capabilities (spec section 1: transport URL
handling, cookie parsing and MIME parsing are out of scope and provided by
Node/npm modules).  `resolve` is `urlUtil.resolve`, `parseHost` is
`urlUtil.parse(u).host`, `extractQuery` is `uri.query`, `querystringParse`
is `querystring.parse`, `toughParse` is `tough.parse` (returning `none` on
parse failure), `contentTypeParse` is `contentType.parse(...).type`
(returning `none` when it throws). -/
structure Capabilities where
  resolve : String → String → String
  parseHost : String → String
  extractQuery : String → Option String
  querystringParse : Option String → List (String × HeaderVal)
  toughParse : String → Option ToughCookie
  contentTypeParse : List (String × HeaderVal) → Option String

/-- Raw response head and stream as the transport delivers them for one hop:
status line data, headers, the body chunks seen by the `data` handler
(lines 235-244), the assembled body the promise would resolve with, and a
possible error raised while streaming the body. -/
structure RawResponse where
  statusCode : Int
  statusMessage : String := ""
  httpVersion : Option String := none
  headers : List (String × HeaderVal) := []
  chunks : List (List Nat) := []
  body : Option BodyValue := none
  streamError : Option TransportError := none

/-- One hop of transport behaviour: either a response head was obtained
(`response = some _`), or the exchange failed before any response
(`connectError` is the `error.cause` of line 266).  `resolvedAddress` is the
address the wrapped `lookup` (lines 210-216) or the literal-IP check
(lines 258-260) recorded during this hop; `startTime`/`duration` are the
wall-clock measurements of lines 319-320 and 330 (epoch ms / elapsed ms). -/
structure RawExchange where
  response : Option RawResponse := none
  connectError : Option TransportError := none
  resolvedAddress : Option String := none
  startTime : Nat := 0
  duration : Nat := 0

/-- Name/value pair of the flattened HAR header and query lists. -/
structure NameValue where
  name : String
  value : String
  deriving Repr, DecidableEq

/-- HAR cookie record (lines 108-129). -/
structure HarCookie where
  name : String
  value : String
  httpOnly : Bool
  secure : Bool
  path : Option String := none
  domain : Option String := none
  expires : Option String := none

/-- HAR postData descriptor (lines 40-45). -/
structure PostData where
  mimeType : String
  text : String

/-- HAR content descriptor (lines 72-106).  `text`/`encoding` are optional
fields, absent unless the source sets them. -/
structure HarContent where
  mimeType : String
  size : Nat := 0
  text : Option String := none
  encoding : Option String := none

/-- HAR request record (lines 142-154). -/
structure HarRequest where
  method : String
  url : String
  httpVersion : String
  cookies : List HarCookie
  headers : List NameValue
  queryString : List NameValue
  postData : Option PostData
  headersSize : Int
  bodySize : Int

/-- HAR response record (lines 156-183).  `_error` is present exactly when
an error occurred. -/
structure HarResponse where
  status : Int
  statusText : String
  httpVersion : String
  cookies : List HarCookie
  headers : List NameValue
  content : HarContent
  redirectURL : String
  headersSize : Int
  bodySize : Int
  _remoteAddress : Option String
  _error : Option TransportError

/-- Timings record (lines 192-196): only the total is measured. -/
structure Timings where
  send : Nat
  receive : Nat
  wait : Nat

/-- One HAR entry (lines 185-198).  `startedDateTime` keeps the epoch-ms
number; its ISO-8601 rendering is Node's `Date.prototype.toISOString`. -/
structure HarEntry where
  startedDateTime : Nat
  time : Nat
  request : HarRequest
  response : HarResponse
  cache : Unit
  timings : Timings

/-- Per-hop metadata handed to `buildHarEntry` (lines 328-332). -/
structure ExchangeMeta where
  startTime : Nat
  duration : Nat
  remoteAddress : Option String

/-- HAR log creator record (lines 380-383). -/
structure HarCreator where
  name : String
  version : String

/-- HAR log envelope (lines 377-386). -/
structure HarLog where
  version : String
  creator : HarCreator
  entries : List HarEntry

/-- Result of `captureHar` (lines 376-387). -/
structure Har where
  log : HarLog

/-- Modelled from the spec: `encodingUtil.transformBinaryToUtf8`
(src/lib/encoding-util.js is not under src/).  The spec treats header and
query values as already-decoded text, so on text the transform is the
identity. -/
def transformBinaryToUtf8 (v : String) : String := v

/-- Modelled from the spec: the creator name taken from package.json (not
under src/); spec section 4.4 says the log carries this tool's own name. -/
def pkgName : String := "capture-har"

/-- Modelled from the spec: the creator version taken from package.json (not
under src/). -/
def pkgVersion : String := "0.0.0"

/-- Embeds JavaScript's `String.prototype.toLowerCase` (charwise, as used on
header names). -/
def lowerCase (s : String) : String := String.mk (s.toList.map Char.toLower)

/-- Embeds JavaScript's `String.prototype.toUpperCase` (charwise, as used on
the request method). -/
def upperCase (s : String) : String := String.mk (s.toList.map Char.toUpper)

/-- Lookup of a header by (already lower-cased) name in a Node headers
object, as in `response.headers['location']`. -/
def getHeader (headers : List (String × HeaderVal)) (name : String) : Option HeaderVal :=
  (headers.find? (fun kv => kv.1 == name)).map (fun kv => kv.2)

/-- View a header value as the single string Node would give for a
non-repeatable header. -/
def headerStr : Option HeaderVal → Option String
  | some (.one s) => some s
  | some (.many vs) => vs.head?
  | none => none

/-- Lookup in a plain string-valued headers object (a config/headers heap
cell), as in `request.headers.cookie`. -/
def headerLookup (headers : List (String × String)) (name : String) : Option String :=
  (headers.find? (fun kv => kv.1 == name)).map (fun kv => kv.2)

/-- Read a heap cell. -/
def heapGet (heap : HeaderHeap) (ref : Nat) : List (String × String) :=
  heap.getD ref []

/-- JavaScript property assignment `obj[name] = value` on a headers object:
overwrite in place if the key exists, otherwise append. -/
def setHeaderKey (hs : List (String × String)) (name value : String) : List (String × String) :=
  if hs.any (fun kv => kv.1 == name) then
    hs.map (fun kv => if kv.1 == name then (kv.1, value) else kv)
  else hs ++ [(name, value)]

/-- Mutate the headers object a config references (the assignment of
line 343 acts on the shared object). -/
def heapSetHeader (heap : HeaderHeap) (ref : Option Nat) (name value : String) : HeaderHeap :=
  match ref with
  | none => heap
  | some r => heap.set r (setHeaderKey (heapGet heap r) name value)

/-- View a config's headers object as Node header values. -/
def strHeaders (hs : List (String × String)) : List (String × HeaderVal) :=
  hs.map (fun kv => (kv.1, HeaderVal.one kv.2))

/-- Embeds `parseInt(s, 10)` restricted to the decimal digit case: the
leading digit run, `none` standing for `NaN`. -/
def parseIntDecimal (s : String) : Option Nat :=
  let digits := s.toList.takeWhile Char.isDigit
  if digits.isEmpty then none
  else some (digits.foldl (fun n c => n * 10 + (c.toNat - 48)) 0)

/-- Embeds lines 11-30, `buildFlattenedNameValueMap`: flatten a headers-like
object into name/value pairs, expanding array values, transforming each
value. -/
def buildFlattenedNameValueMap (obj : Option (List (String × HeaderVal))) : List NameValue :=
  match obj with
  | none => []
  | some entries =>
    entries.foldl (fun result kv =>
      match kv.2 with
      | .many vs => result ++ vs.map (fun v => { name := kv.1, value := transformBinaryToUtf8 v })
      | .one v => result ++ [{ name := kv.1, value := transformBinaryToUtf8 v }]) []

/-- Embeds lines 32-34, `buildHarHeaders`. -/
def buildHarHeaders (headers : Option (List (String × HeaderVal))) : List NameValue :=
  buildFlattenedNameValueMap headers

/-- Embeds lines 36-38, `buildHarQuery`. -/
def buildHarQuery (caps : Capabilities) (query : Option String) : List NameValue :=
  buildFlattenedNameValueMap (some (caps.querystringParse query))

/-- Embeds lines 64-70, `getMimeType`: the collaborator's parse result, or
`x-unknown` when `contentType.parse` throws. -/
def getMimeType (parsed : Option String) : String :=
  parsed.getD "x-unknown"

/-- Embeds lines 47-50, `parseHttpVersion`.  An empty version string is
falsy in JavaScript. -/
def parseHttpVersion (response : Option HttpResponse) : String :=
  match response with
  | none => "unknown"
  | some res =>
    match res.httpVersion with
    | some v => if v = "" then "unknown" else "HTTP/" ++ v
    | none => "unknown"

/-- Embeds lines 52-62, `parseRedirectUrl`: for a 3xx response with a
non-empty Location header, resolve it against the hop's request URL;
otherwise the empty string. -/
def parseRedirectUrl (caps : Capabilities) (response : Option HttpResponse) : String :=
  match response with
  | none => ""
  | some res =>
    if 300 ≤ res.statusCode ∧ res.statusCode < 400 then
      match (headerStr (getHeader res.headers "location")).map transformBinaryToUtf8 with
      | some location => if location = "" then "" else caps.resolve res.requestHref location
      | none => ""
    else ""

/-- Base64 alphabet used by Node's `Buffer.prototype.toString('base64')`. -/
def base64Alphabet : List Char :=
  "ABCDEFGHIJKLMNOPQRSTUVWXYZabcdefghijklmnopqrstuvwxyz0123456789+/".toList

/-- Character for a sextet value (< 64). -/
def sextetChar (n : Nat) : Char := base64Alphabet.getD n '='

/-- Index of a base64 character in the alphabet. -/
def charToSextet (c : Char) : Nat := base64Alphabet.indexOf c

/-- Sextet stream of a byte list: each group of three bytes becomes four
sextets, a trailing group of two becomes three, of one becomes two. -/
def base64Sextets : List Nat → List Nat
  | a :: b :: c :: rest =>
    a / 4 :: ((a % 4) * 16 + b / 16) :: ((b % 16) * 4 + c / 64) :: c % 64 :: base64Sextets rest
  | [a, b] => [a / 4, (a % 4) * 16 + b / 16, (b % 16) * 4]
  | [a] => [a / 4, (a % 4) * 16]
  | [] => []

/-- Embeds Node's `Buffer.prototype.toString('base64')` on a byte list:
alphabet characters for the sextet stream, padded with `=` to a multiple of
four characters. -/
def base64Encode (bytes : List Nat) : String :=
  String.mk ((base64Sextets bytes).map sextetChar ++
    List.replicate ((3 - bytes.length % 3) % 3) '=')

/-- Byte list of a sextet stream: inverse direction of `base64Sextets`. -/
def base64DecodeSextets : List Nat → List Nat
  | s1 :: s2 :: s3 :: s4 :: rest =>
    (s1 * 4 + s2 / 16) :: ((s2 % 16) * 16 + s3 / 4) :: ((s3 % 4) * 64 + s4) :: base64DecodeSextets rest
  | [s1, s2, s3] => [s1 * 4 + s2 / 16, (s2 % 16) * 16 + s3 / 4]
  | [s1, s2] => [s1 * 4 + s2 / 16]
  | _ => []

/-- Embeds Node's `Buffer.from(s, 'base64')`: drop padding, map characters
back to sextets, reassemble bytes. -/
def base64Decode (s : String) : List Nat :=
  base64DecodeSextets ((s.toList.filter (fun c => c != '=')).map charToSextet)

/-- Embeds lines 40-45, `buildHarPostData`: present only when a body was
sent (the empty string is falsy). -/
def buildHarPostData (caps : Capabilities) (body : Option String)
    (headers : List (String × HeaderVal)) : Option PostData :=
  match body with
  | some b =>
    if b = "" then none
    else some { mimeType := getMimeType (caps.contentTypeParse headers), text := b }
  | none => none

/-- Embeds lines 72-106, `buildHarContent`.  JavaScript truthiness: an empty
string body is falsy (no text captured), an empty Buffer is truthy. -/
def buildHarContent (caps : Capabilities) (response : Option HttpResponse)
    (harConfig : HarConfig) : HarContent :=
  match response with
  | none => { size := 0, mimeType := "x-unknown" }
  | some res =>
    let c0 : HarContent := { mimeType := getMimeType (caps.contentTypeParse res.headers) }
    let c1 :=
      if harConfig.withContent then
        match res.body with
        | some (BodyValue.str s) => if s = "" then c0 else { c0 with text := some s }
        | some (BodyValue.buf bytes) =>
          { c0 with text := some (base64Encode bytes), encoding := some "base64" }
        | some (BodyValue.json j) => { c0 with text := some j, encoding := some "utf8" }
        | none => c0
      else c0
    match res.body with
    | some (BodyValue.str s) => { c1 with size := s.utf8ByteSize }
    | some (BodyValue.buf bytes) => { c1 with size := bytes.length }
    | _ =>
      match c1.text with
      | some t => if t = "" then { c1 with size := 0 } else { c1 with size := t.utf8ByteSize }
      | none => { c1 with size := 0 }

/-- Embeds lines 108-129, `buildHarCookie`: optional fields only when truthy
(path/domain) or a concrete `Date` (expires). -/
def buildHarCookie (cookie : ToughCookie) : HarCookie :=
  { name := cookie.key
    value := cookie.value
    httpOnly := cookie.httpOnly
    secure := cookie.secure
    path := cookie.path.bind (fun p => if p = "" then none else some p)
    domain := cookie.domain.bind (fun d => if d = "" then none else some d)
    expires := cookie.expires }

/-- Embeds lines 131-140, `buildHarCookies`: parse each cookie string,
silently dropping the ones `tough.parse` rejects. -/
def buildHarCookies (caps : Capabilities) (cookies : Option (List String)) : List HarCookie :=
  match cookies with
  | none => []
  | some cs => ((cs.map caps.toughParse).filterMap id).map buildHarCookie

/-- Request handle for one hop: the fields src/lib/index.js reads off the
transport's request object.  The transport parses `options.url` into
`request.uri`, embedded here as the config's url taken verbatim; `headers`
is the snapshot of the headers actually sent (`req._headers`). -/
structure ReqHandle where
  method : String
  uriHref : String
  headers : List (String × String)
  body : Option String

/-- Embeds lines 142-154, `buildHarRequest`. -/
def buildHarRequest (caps : Capabilities) (request : ReqHandle) : HarRequest :=
  let cookieHeader := (headerLookup request.headers "cookie").bind
    (fun c => if c = "" then none else some (c.splitOn ";"))
  { method := upperCase request.method
    url := request.uriHref
    httpVersion := "HTTP/1.1"
    cookies := buildHarCookies caps cookieHeader
    headers := buildHarHeaders (some (strHeaders request.headers))
    queryString := buildHarQuery caps (caps.extractQuery request.uriHref)
    postData := buildHarPostData caps request.body (strHeaders request.headers)
    headersSize := -1
    bodySize := -1 }

/-- Embeds lines 156-183, `buildHarResponse`.  Status falls back to -1 when
no response (or a falsy status code) was obtained; `_error` is set exactly
when an error occurred, carrying the error's own message and code. -/
def buildHarResponse (caps : Capabilities) (error : Option TransportError)
    (response : Option HttpResponse) (harConfig : HarConfig) (meta : ExchangeMeta) :
    HarResponse :=
  let setCookieHeader : Option (List String) :=
    match response with
    | none => none
    | some res =>
      match getHeader res.headers "set-cookie" with
      | some (.one s) => if s = "" then none else some [s]
      | some (.many vs) => some vs
      | none => none
  { status :=
      match response with
      | some res => if res.statusCode = 0 then -1 else res.statusCode
      | none => -1
    statusText := (response.map (fun r => r.statusMessage)).getD ""
    httpVersion := parseHttpVersion response
    cookies := buildHarCookies caps setCookieHeader
    headers := buildHarHeaders (response.map (fun r => r.headers))
    content := buildHarContent caps response harConfig
    redirectURL := parseRedirectUrl caps response
    headersSize := -1
    bodySize := -1
    _remoteAddress := meta.remoteAddress
    _error := error.map (fun e => { message := e.message, code := e.code }) }

/-- Embeds lines 185-198, `buildHarEntry`. -/
def buildHarEntry (caps : Capabilities) (request : ReqHandle) (error : Option TransportError)
    (response : Option HttpResponse) (harConfig : HarConfig) (meta : ExchangeMeta) : HarEntry :=
  { startedDateTime := meta.startTime
    time := meta.duration
    request := buildHarRequest caps request
    response := buildHarResponse caps error response harConfig meta
    cache := ()
    timings := { send := 0, receive := 0, wait := meta.duration } }

/-- Engine-raised size-limit error (lines 226-227 and 240-241). -/
def maxResBodyError : TransportError :=
  { message := "Maximum response size exceeded", code := "MAX_RES_BODY_SIZE" }

/-- Embeds the head check of line 224: a declared Content-Length strictly
above the configured maximum triggers the abort.  `maxContentLength = none`
is the default `Infinity`, against which `parseInt(h) > Infinity` is false,
as is any comparison against `NaN` (no digits). -/
def contentLengthExceeded (res : RawResponse) (maxContentLength : Option Nat) : Bool :=
  match maxContentLength with
  | none => false
  | some m =>
    match parseIntDecimal ((headerStr (getHeader res.headers "content-length")).getD "") with
    | some n => decide (m < n)
    | none => false

/-- Embeds the data handler of lines 235-244: accumulate chunk lengths,
aborting the moment the running total exceeds the maximum. -/
def bufferExceeds (chunks : List (List Nat)) (maxContentLength : Nat) : Bool :=
  (chunks.foldl (fun acc chunk =>
    let len := acc.1 + chunk.length
    (len, acc.2 || decide (maxContentLength < len))) ((0 : Nat), false)).2

/-- Embeds lines 205-268, `captureEntry`, as the per-hop outcome function:
given the raw transport behaviour, the pair of `error.cause` and response
that the promise settles with (lines 262-267).  With `withContent` disabled
the response stream is destroyed as soon as the head arrives (lines
221-223), so no body is read and no size check runs; otherwise the
Content-Length head check and, for a finite maximum, the streaming byte
count can abort the hop with `maxResBodyError`.  A body-stream error leaves
the response without a body. -/
def captureEntry (requestConfig : RequestConfig) (harConfig : HarConfig)
    (raw : RawExchange) : Option TransportError × Option HttpResponse :=
  match raw.response with
  | none => (raw.connectError, none)
  | some res =>
    let head : HttpResponse :=
      { statusCode := res.statusCode
        statusMessage := res.statusMessage
        httpVersion := res.httpVersion
        headers := res.headers
        body := none
        requestHref := requestConfig.url }
    if harConfig.withContent = false then
      (none, some head)
    else if contentLengthExceeded res harConfig.maxContentLength then
      (some maxResBodyError, some head)
    else
      let finish : Option TransportError × Option HttpResponse :=
        match res.streamError with
        | some e => (some e, some head)
        | none => (none, some { head with body := res.body })
      match harConfig.maxContentLength with
      | some m => if bufferExceeds res.chunks m then (some maxResBodyError, some head) else finish
      | none => finish

/-- Engine-raised missing-location error (lines 281-284). -/
def noLocationError : TransportError :=
  { message := "Missing location header", code := "NOLOCATION" }

/-- Engine-raised redirect-depth error (lines 301-304). -/
def maxRedirectsError : TransportError :=
  { message := "Max redirects exceeded", code := "MAXREDIRECTS" }

/-- Embeds lines 270-308, `shouldRedirect`: decide whether to follow the
hop's response, together with the error (if any) to record on the hop.
The `followRedirect` default is true and the `maxRedirects` default is 10;
a function-valued `followRedirect` is truthy, so it reaches the `typeof`
check and its boolean result alone decides. -/
def shouldRedirect (caps : Capabilities) (response : Option HttpResponse)
    (requestConfig : RequestConfig) (depth : Nat) : Bool × Option TransportError :=
  match response with
  | none => (false, none)
  | some res =>
    if res.statusCode < 300 ∨ 400 ≤ res.statusCode then (false, none)
    else
      let redirectUrl := parseRedirectUrl caps (some res)
      if redirectUrl = "" then (false, some noLocationError)
      else
        match requestConfig.followRedirect with
        | .flag false => (false, none)
        | .pred f => (f res, none)
        | .flag true | .default =>
          if requestConfig.maxRedirects.getD 10 < depth then (false, some maxRedirectsError)
          else (true, none)

/-- Embeds lines 310-316, `getCustomHostHeaderName`: the first key of the
config's headers object whose lower-casing is `host`, if any. -/
def getCustomHostHeaderName (heap : HeaderHeap) (requestConfig : RequestConfig) : Option String :=
  match requestConfig.headersRef with
  | none => none
  | some ref =>
    ((heapGet heap ref).find? (fun kv => lowerCase kv.1 == "host")).map (fun kv => kv.1)

/-- Embeds lines 336-344: derive the next hop's config by shallow copy with
the url replaced (`Object.assign({}, requestConfig, {url})` copies the
headers reference), then, when the caller set an explicit Host header,
assign the new target's host into the shared headers object. -/
def redirectStep (caps : Capabilities) (requestConfig : RequestConfig)
    (redirectURL : String) (heap : HeaderHeap) : RequestConfig × HeaderHeap :=
  let redirectConfig := { requestConfig with url := redirectURL }
  match getCustomHostHeaderName heap requestConfig with
  | some headerName =>
    (redirectConfig, heapSetHeader heap requestConfig.headersRef headerName
      (caps.parseHost redirectURL))
  | none => (redirectConfig, heap)

/-- Redirect decision taken by `captureEntries` at one hop (line 324). -/
def hopDecision (caps : Capabilities) (harConfig : HarConfig) (requestConfig : RequestConfig)
    (raw : RawExchange) (depth : Nat) : Bool × Option TransportError :=
  shouldRedirect caps (captureEntry requestConfig harConfig raw).2 requestConfig depth

/-- DNS-cache slot after one hop: the address recorded during the hop, else
the value carried over from earlier hops (lines 210-216, 258-260). -/
def hopCache (raw : RawExchange) (dnsCache : Option String) : Option String :=
  match raw.resolvedAddress with
  | some ip => some ip
  | none => dnsCache

/-- Request handle for one hop (`response.request || request`, line 327):
both denote the hop's own request object. -/
def buildReqHandle (requestConfig : RequestConfig) (heap : HeaderHeap) : ReqHandle :=
  { method := requestConfig.method
    uriHref := requestConfig.url
    headers :=
      match requestConfig.headersRef with
      | some ref => heapGet heap ref
      | none => []
    body := requestConfig.body }

/-- HAR entry built for one hop (lines 323-332): the transport error wins
over the redirect error (`error = error || redirectError`, line 325). -/
def hopEntry (caps : Capabilities) (harConfig : HarConfig) (requestConfig : RequestConfig)
    (raw : RawExchange) (heap : HeaderHeap) (dnsCache : Option String) (depth : Nat) : HarEntry :=
  let captured := captureEntry requestConfig harConfig raw
  let error :=
    match captured.1 with
    | some e => some e
    | none => (hopDecision caps harConfig requestConfig raw depth).2
  buildHarEntry caps (buildReqHandle requestConfig heap) error captured.2 harConfig
    { startTime := raw.startTime
      duration := raw.duration
      remoteAddress := hopCache raw dnsCache }

/-- Embeds lines 318-351, `captureEntries`: capture one hop, build its
entry, and when the decision is to follow, recurse on the derived config,
prepending this hop's entry.  The trace lists, hop by hop, what the
transport delivers; recursion consumes it, the depth counter increments per
follow, and the headers heap and DNS cache thread through. -/
def captureEntries (caps : Capabilities) (harConfig : HarConfig) :
    List RawExchange → RequestConfig → HeaderHeap → Option String → Nat →
    List HarEntry × HeaderHeap
  | [], _, heap, _, _ => ([], heap)
  | raw :: rest, requestConfig, heap, dnsCache, depth =>
    let entry := hopEntry caps harConfig requestConfig raw heap dnsCache depth
    if (hopDecision caps harConfig requestConfig raw depth).1 then
      let step := redirectStep caps requestConfig entry.response.redirectURL heap
      let recd := captureEntries caps harConfig rest step.1 step.2
        (hopCache raw dnsCache) (depth + 1)
      (entry :: recd.1, recd.2)
    else
      ([entry], heap)

/-- Embeds lines 353-362, `buildHarConfig`: apply the defaults
`withContent = true` and `maxContentLength = Infinity` (`none`). -/
def buildHarConfig (harConfig : HarConfigInput) : HarConfig :=
  { withContent := harConfig.withContent.getD true
    maxContentLength := harConfig.maxContentLength }

/-- Embeds lines 364-369, `buildRequestConfig`: a bare URL string becomes a
minimal config. -/
def buildRequestConfig : Sum String RequestConfig → RequestConfig
  | .inl url => { url := url }
  | .inr cfg => cfg

/-- Embeds lines 371-388, `captureHar`: normalize both configs, run the
redirect recursion from depth 1 with a fresh DNS-cache slot, and wrap the
entries in the HAR log envelope. -/
def captureHar (caps : Capabilities) (trace : List RawExchange)
    (requestConfig : Sum String RequestConfig) (harConfig : HarConfigInput)
    (heap : HeaderHeap) : Har :=
  { log :=
      { version := "1.2"
        creator := { name := pkgName, version := pkgVersion }
        entries :=
          (captureEntries caps (buildHarConfig harConfig)
            trace (buildRequestConfig requestConfig) heap none 1).1 } }

/-- Settlement kinds of one exchange: normal completion (the request stream
emits `end`), a transport error (no `end` is emitted after `error` on a Node
stream), or an abort. -/
inductive ExchangeSettle where
  | endOfResponse
  | transportFailure
  | abortedExchange
  deriving Repr, DecidableEq

/-- Whether a settlement kind emits the `end` event. -/
def endEmitted : ExchangeSettle → Bool
  | .endOfResponse => true
  | _ => false

/-- Temporal scenario for the global-timeout timer of lines 247-256: the
configured deadline, the instant at which the exchange settles through the
transport, and how it settles. -/
structure TimerScenario where
  timeout : Nat
  settleTime : Nat
  settle : ExchangeSettle
  deriving Repr, DecidableEq

/-- Engine-raised timeout error (lines 249-250). -/
def globalTimeoutError : TransportError :=
  { message := "global ETIMEDOUT", code := "ETIMEDOUT" }

/-- Whether the deadline passes before the exchange completes (the timer
callback of lines 248-253 runs first). -/
def engineTimedOut (s : TimerScenario) : Bool :=
  decide (s.timeout ≤ s.settleTime)

/-- Error the global timer surfaces on the exchange, per lines 248-253. -/
def globalTimeoutOutcome (s : TimerScenario) : Option TransportError :=
  if engineTimedOut s then some globalTimeoutError else none

/-- Embeds line 255, `reqObject.once('end', () => clearTimeout(...))`: the
timer is cleared exactly when the exchange settles by emitting `end` before
the deadline.  No other settlement path clears it. -/
def globalTimeoutCleared (s : TimerScenario) : Bool :=
  endEmitted s.settle && decide (s.settleTime < s.timeout)

/-- Whether the timer still fires after the exchange has already settled:
the exchange settled strictly before the deadline, yet nothing cleared the
timer. -/
def timerFiresAfterSettle (s : TimerScenario) : Bool :=
  decide (s.settleTime < s.timeout) && ! globalTimeoutCleared s

theorem base64Sextets_lt : ∀ (bytes : List Nat), (∀ x ∈ bytes, x < 256) →
    ∀ s ∈ base64Sextets bytes, s < 64
  | a :: b :: c :: rest, h => by
    have ha : a < 256 := h a (by simp)
    have hb : b < 256 := h b (by simp)
    have hc : c < 256 := h c (by simp)
    have ih := base64Sextets_lt rest (fun x hx => h x (by simp [hx]))
    intro s hs
    simp only [base64Sextets, List.mem_cons] at hs
    rcases hs with rfl | rfl | rfl | rfl | hs
    · omega
    · omega
    · omega
    · omega
    · exact ih s hs
  | [a, b], h => by
    have ha : a < 256 := h a (by simp)
    have hb : b < 256 := h b (by simp)
    intro s hs
    simp only [base64Sextets, List.mem_cons, List.not_mem_nil, or_false] at hs
    rcases hs with rfl | rfl | rfl
    · omega
    · omega
    · omega
  | [a], h => by
    have ha : a < 256 := h a (by simp)
    intro s hs
    simp only [base64Sextets, List.mem_cons, List.not_mem_nil, or_false] at hs
    rcases hs with rfl | rfl
    · omega
    · omega
  | [], _ => by
    intro s hs
    simp [base64Sextets] at hs

theorem base64DecodeSextets_base64Sextets : ∀ (bytes : List Nat), (∀ x ∈ bytes, x < 256) →
    base64DecodeSextets (base64Sextets bytes) = bytes
  | a :: b :: c :: rest, h => by
    have ha : a < 256 := h a (by simp)
    have hb : b < 256 := h b (by simp)
    have hc : c < 256 := h c (by simp)
    have ih := base64DecodeSextets_base64Sextets rest (fun x hx => h x (by simp [hx]))
    simp only [base64Sextets, base64DecodeSextets, List.cons.injEq]
    exact ⟨by omega, by omega, by omega, ih⟩
  | [a, b], h => by
    have ha : a < 256 := h a (by simp)
    have hb : b < 256 := h b (by simp)
    simp only [base64Sextets, base64DecodeSextets, List.cons.injEq, and_true]
    exact ⟨by omega, by omega⟩
  | [a], h => by
    have ha : a < 256 := h a (by simp)
    simp only [base64Sextets, base64DecodeSextets, List.cons.injEq, and_true]
    omega
  | [], _ => rfl

theorem filter_replicate_pad (k : Nat) :
    (List.replicate k '=').filter (fun c => c != '=') = [] := by
  induction k with
  | zero => rfl
  | succ n ih => simp [List.replicate_succ, List.filter_cons, ih]

theorem charToSextet_sextetChar : ∀ n < 64, charToSextet (sextetChar n) = n := by decide

theorem sextetChar_ne_pad : ∀ n < 64, (sextetChar n != '=') = true := by decide

theorem map_charToSextet_map_sextetChar (l : List Nat) (h : ∀ s ∈ l, s < 64) :
    (l.map sextetChar).map charToSextet = l := by
  induction l with
  | nil => rfl
  | cons a t ih =>
    simp only [List.map_cons, List.cons.injEq]
    exact ⟨charToSextet_sextetChar a (h a (by simp)),
      ih (fun s hs => h s (by simp [hs]))⟩

theorem base64_chars_to_sextets (bytes : List Nat) (h : ∀ x ∈ bytes, x < 256) (k : Nat) :
    ((((base64Sextets bytes).map sextetChar ++ List.replicate k '=').filter
      (fun c => c != '=')).map charToSextet) = base64Sextets bytes := by
  rw [List.filter_append, filter_replicate_pad, List.append_nil,
    List.filter_eq_self.mpr, map_charToSextet_map_sextetChar _ (base64Sextets_lt bytes h)]
  intro c hc
  rcases List.mem_map.mp hc with ⟨s, hs, rfl⟩
  exact sextetChar_ne_pad s (base64Sextets_lt bytes h s hs)

/-- Decoding an encoded byte list (all values bytes) gives it back. -/
theorem base64_roundtrip (bytes : List Nat) (h : ∀ x ∈ bytes, x < 256) :
    base64Decode (base64Encode bytes) = bytes := by
  show base64DecodeSextets ((((base64Sextets bytes).map sextetChar ++
    List.replicate ((3 - bytes.length % 3) % 3) '=').filter
      (fun c => c != '=')).map charToSextet) = bytes
  rw [base64_chars_to_sextets bytes h]
  exact base64DecodeSextets_base64Sextets bytes h

/-- C10: for every binary (Buffer) response body captured with withContent
true, the entry's content descriptor has encoding 'base64', base64-decoding
content.text reproduces the original body bytes exactly, and content.size
is the original byte length. -/
theorem buildHarContent_base64_roundtrip (caps : Capabilities) (harConfig : HarConfig)
    (res : HttpResponse) (bytes : List Nat)
    (hw : harConfig.withContent = true)
    (hb : res.body = some (BodyValue.buf bytes))
    (hbytes : ∀ x ∈ bytes, x < 256) :
    (buildHarContent caps (some res) harConfig).encoding = some "base64" ∧
    (buildHarContent caps (some res) harConfig).text = some (base64Encode bytes) ∧
    ((buildHarContent caps (some res) harConfig).text.map base64Decode) = some bytes ∧
    (buildHarContent caps (some res) harConfig).size = bytes.length := by
  have hrt := base64_roundtrip bytes hbytes
  simp [buildHarContent, hb, hw, hrt]

def witnessCaps : Capabilities :=
  { resolve := fun _ loc => loc
    parseHost := fun s =>
      String.mk (((s.toList.dropWhile (fun c => c != '/')).drop 2).takeWhile
        (fun c => c != '/'))
    extractQuery := fun _ => none
    querystringParse := fun _ => []
    toughParse := fun _ => none
    contentTypeParse := fun _ => none }

def witnessHarConfig : HarConfig := { withContent := true, maxContentLength := none }

def witnessBufResponse : HttpResponse :=
  { statusCode := 200
    statusMessage := "OK"
    httpVersion := some "1.1"
    headers := []
    body := some (BodyValue.buf [0, 1, 255])
    requestHref := "http://a.example/" }

theorem buildHarContent_base64_roundtrip_witness :
    (buildHarContent witnessCaps (some witnessBufResponse) witnessHarConfig).encoding =
        some "base64" ∧
    (buildHarContent witnessCaps (some witnessBufResponse) witnessHarConfig).text =
        some (base64Encode [0, 1, 255]) ∧
    ((buildHarContent witnessCaps (some witnessBufResponse) witnessHarConfig).text.map
        base64Decode) = some [0, 1, 255] ∧
    (buildHarContent witnessCaps (some witnessBufResponse) witnessHarConfig).size = 3 :=
  buildHarContent_base64_roundtrip witnessCaps witnessHarConfig witnessBufResponse
    [0, 1, 255] rfl rfl (by decide)

/-- C8 counterexample: an exchange that settles through a transport error at
time 1, with a 5ms timer configured.  Nothing clears the timer (only the
`end` handler of line 255 would), so it is not cancelled on settlement and
still fires after the exchange has settled — against the claim that the
timer is cancelled once the exchange settles regardless of outcome. -/
theorem globalTimeout_error_settle_not_cleared :
    globalTimeoutCleared
      { timeout := 5, settleTime := 1, settle := ExchangeSettle.transportFailure } = false ∧
    timerFiresAfterSettle
      { timeout := 5, settleTime := 1, settle := ExchangeSettle.transportFailure } = true := by
  decide

/-- C8 (amended): the timer raises ETIMEDOUT exactly when the deadline
passes before the exchange completes; it is cancelled exactly when the
exchange settles by emitting `end` before the deadline (so after a normal
completion it never fires), while error and abort settlements leave it
armed. -/
theorem globalTimeout_protocol (s : TimerScenario) :
    (globalTimeoutCleared s = true ↔
      (endEmitted s.settle = true ∧ s.settleTime < s.timeout)) ∧
    (s.settle = ExchangeSettle.endOfResponse → s.settleTime < s.timeout →
      timerFiresAfterSettle s = false) ∧
    (globalTimeoutOutcome s = some globalTimeoutError ↔ s.timeout ≤ s.settleTime) ∧
    globalTimeoutError.code = "ETIMEDOUT" := by
  refine ⟨?_, ?_, ?_, rfl⟩
  · simp [globalTimeoutCleared]
  · intro h1 h2
    simp [timerFiresAfterSettle, globalTimeoutCleared, h1, h2, endEmitted]
  · by_cases h : s.timeout ≤ s.settleTime <;>
      simp [globalTimeoutOutcome, engineTimedOut, h]

theorem globalTimeout_protocol_witness :
    timerFiresAfterSettle
      { timeout := 5, settleTime := 1, settle := ExchangeSettle.endOfResponse } = false :=
  (globalTimeout_protocol
    { timeout := 5, settleTime := 1, settle := ExchangeSettle.endOfResponse }).2.1
    rfl (by decide)

theorem parseRedirectUrl_ne_empty_status (caps : Capabilities) (res : HttpResponse)
    (h : parseRedirectUrl caps (some res) ≠ "") :
    300 ≤ res.statusCode ∧ res.statusCode < 400 := by
  by_contra hc
  apply h
  simp only [parseRedirectUrl]
  rw [if_neg hc]

theorem shouldRedirect_default_true (caps : Capabilities) (cfg : RequestConfig)
    (resp : HttpResponse) (depth : Nat)
    (hfr : cfg.followRedirect = FollowRedirect.default ∨
      cfg.followRedirect = FollowRedirect.flag true)
    (hloc : parseRedirectUrl caps (some resp) ≠ "") :
    shouldRedirect caps (some resp) cfg depth =
      if cfg.maxRedirects.getD 10 < depth then (false, some maxRedirectsError)
      else (true, none) := by
  have h3 := parseRedirectUrl_ne_empty_status caps resp hloc
  have hnot : ¬ (resp.statusCode < 300 ∨ 400 ≤ resp.statusCode) := by omega
  rcases hfr with hfr | hfr <;>
  · simp only [shouldRedirect]
    rw [if_neg hnot, if_neg hloc, hfr]

theorem shouldRedirect_pred_eq (caps : Capabilities) (cfg : RequestConfig)
    (resp : HttpResponse) (depth : Nat) (f : HttpResponse → Bool)
    (hfr : cfg.followRedirect = FollowRedirect.pred f)
    (hloc : parseRedirectUrl caps (some resp) ≠ "") :
    shouldRedirect caps (some resp) cfg depth = (f resp, none) := by
  have h3 := parseRedirectUrl_ne_empty_status caps resp hloc
  have hnot : ¬ (resp.statusCode < 300 ∨ 400 ≤ resp.statusCode) := by omega
  simp only [shouldRedirect]
  rw [if_neg hnot, if_neg hloc, hfr]

theorem redirectStep_fst (caps : Capabilities) (cfg : RequestConfig) (u : String)
    (heap : HeaderHeap) :
    (redirectStep caps cfg u heap).1 = { cfg with url := u } := by
  cases h : getCustomHostHeaderName heap cfg <;> simp [redirectStep, h]

theorem hopEntry_request_url (caps : Capabilities) (harConfig : HarConfig)
    (cfg : RequestConfig) (raw : RawExchange) (heap : HeaderHeap) (cache : Option String)
    (depth : Nat) :
    (hopEntry caps harConfig cfg raw heap cache depth).request.url = cfg.url := rfl

theorem hopEntry_redirectURL (caps : Capabilities) (harConfig : HarConfig)
    (cfg : RequestConfig) (raw : RawExchange) (heap : HeaderHeap) (cache : Option String)
    (depth : Nat) :
    (hopEntry caps harConfig cfg raw heap cache depth).response.redirectURL =
      parseRedirectUrl caps (captureEntry cfg harConfig raw).2 := rfl

theorem hopEntry_error (caps : Capabilities) (harConfig : HarConfig)
    (cfg : RequestConfig) (raw : RawExchange) (heap : HeaderHeap) (cache : Option String)
    (depth : Nat) :
    (hopEntry caps harConfig cfg raw heap cache depth).response._error =
      ((match (captureEntry cfg harConfig raw).1 with
        | some e => some e
        | none => (hopDecision caps harConfig cfg raw depth).2 :
          Option TransportError)).map
        (fun e => ({ message := e.message, code := e.code } : TransportError)) := rfl

theorem captureEntries_stop (caps : Capabilities) (harConfig : HarConfig)
    (cfg : RequestConfig) (raw : RawExchange) (rest : List RawExchange)
    (heap : HeaderHeap) (cache : Option String) (depth : Nat)
    (hstop : (hopDecision caps harConfig cfg raw depth).1 = false) :
    captureEntries caps harConfig (raw :: rest) cfg heap cache depth =
      ([hopEntry caps harConfig cfg raw heap cache depth], heap) := by
  simp [captureEntries, hstop]

theorem captureEntries_follow (caps : Capabilities) (harConfig : HarConfig)
    (cfg : RequestConfig) (raw : RawExchange) (rest : List RawExchange)
    (heap : HeaderHeap) (cache : Option String) (depth : Nat)
    (hgo : (hopDecision caps harConfig cfg raw depth).1 = true) :
    captureEntries caps harConfig (raw :: rest) cfg heap cache depth =
      ((hopEntry caps harConfig cfg raw heap cache depth) ::
        (captureEntries caps harConfig rest
          (redirectStep caps cfg
            (hopEntry caps harConfig cfg raw heap cache depth).response.redirectURL heap).1
          (redirectStep caps cfg
            (hopEntry caps harConfig cfg raw heap cache depth).response.redirectURL heap).2
          (hopCache raw cache) (depth + 1)).1,
        (captureEntries caps harConfig rest
          (redirectStep caps cfg
            (hopEntry caps harConfig cfg raw heap cache depth).response.redirectURL heap).1
          (redirectStep caps cfg
            (hopEntry caps harConfig cfg raw heap cache depth).response.redirectURL heap).2
          (hopCache raw cache) (depth + 1)).2) := by
  simp [captureEntries, hgo]

/-- C3: for a redirecting response with a usable Location header, under the
default or explicitly-true followRedirect, the hop is followed iff the
current depth (1 at the first hop, +1 per follow, as captureEntries passes
it) does not exceed maxRedirects (default 10); beyond that the decision
records the MAXREDIRECTS error, and maxRedirects = 0 makes a single
redirecting exchange produce exactly one entry carrying that code. -/
theorem shouldRedirect_maxRedirects_depth (caps : Capabilities) (cfg : RequestConfig)
    (resp : HttpResponse) (depth : Nat)
    (hfr : cfg.followRedirect = FollowRedirect.default ∨
      cfg.followRedirect = FollowRedirect.flag true)
    (hloc : parseRedirectUrl caps (some resp) ≠ "") :
    ((shouldRedirect caps (some resp) cfg depth).1 = true ↔
      depth ≤ cfg.maxRedirects.getD 10) ∧
    (cfg.maxRedirects.getD 10 < depth →
      (shouldRedirect caps (some resp) cfg depth).2 = some maxRedirectsError) ∧
    maxRedirectsError.code = "MAXREDIRECTS" ∧
    (∀ (harConfig : HarConfig) (raw : RawExchange) (heap : HeaderHeap)
        (cache : Option String),
      cfg.maxRedirects = some 0 →
      captureEntry cfg harConfig raw = (none, some resp) →
      (captureEntries caps harConfig [raw] cfg heap cache 1).1.length = 1 ∧
      ((captureEntries caps harConfig [raw] cfg heap cache 1).1.head?).map
        (fun e => e.response._error) = some (some maxRedirectsError)) := by
  have key := fun d => shouldRedirect_default_true caps cfg resp d hfr hloc
  refine ⟨?_, ?_, rfl, ?_⟩
  · rw [key depth]
    constructor
    · intro ht
      by_contra hgt
      rw [if_pos (by omega)] at ht
      exact Bool.false_ne_true ht
    · intro hle
      rw [if_neg (by omega)]
  · intro h
    rw [key depth, if_pos h]
  · intro harConfig raw heap cache hmax hcap
    have hdec : hopDecision caps harConfig cfg raw 1 = (false, some maxRedirectsError) := by
      unfold hopDecision
      rw [hcap]
      have h2 : ((none, some resp) :
          Option TransportError × Option HttpResponse).2 = some resp := rfl
      rw [h2, key 1, hmax]
      simp
    rw [captureEntries_stop caps harConfig cfg raw [] heap cache 1 (by rw [hdec])]
    have herr : (hopEntry caps harConfig cfg raw heap cache 1).response._error =
        some maxRedirectsError := by
      rw [hopEntry_error, hcap]
      simp [hdec]
    exact ⟨rfl, by simp [herr]⟩

def witnessRedirectResp : HttpResponse :=
  { statusCode := 301
    statusMessage := ""
    httpVersion := none
    headers := [("location", HeaderVal.one "http://b.example/x")]
    body := none
    requestHref := "http://a.example/" }

def witnessRaw301 : RawExchange :=
  { response := some
      { statusCode := 301
        headers := [("location", HeaderVal.one "http://b.example/x")] } }

def witnessCfgMax0 : RequestConfig :=
  { url := "http://a.example/", maxRedirects := some 0 }

theorem shouldRedirect_maxRedirects_depth_witness :
    (captureEntries witnessCaps witnessHarConfig [witnessRaw301]
      witnessCfgMax0 [] none 1).1.length = 1 ∧
    ((captureEntries witnessCaps witnessHarConfig [witnessRaw301]
      witnessCfgMax0 [] none 1).1.head?).map
      (fun e => e.response._error) = some (some maxRedirectsError) :=
  (shouldRedirect_maxRedirects_depth witnessCaps witnessCfgMax0 witnessRedirectResp 1
    (Or.inl rfl) (by decide)).2.2.2 witnessHarConfig witnessRaw301 [] none rfl (by decide)

/-- C4: when followRedirect is a predicate function, its boolean result on
the response alone decides follow or stop for a hop with a usable redirect,
with no error recorded and with no dependence on depth or maxRedirects; a
predicate returning false on the first redirecting response yields exactly
one entry with no error. -/
theorem shouldRedirect_predicate (caps : Capabilities) (cfg : RequestConfig)
    (resp : HttpResponse) (depth : Nat) (f : HttpResponse → Bool)
    (hfr : cfg.followRedirect = FollowRedirect.pred f)
    (hloc : parseRedirectUrl caps (some resp) ≠ "") :
    shouldRedirect caps (some resp) cfg depth = (f resp, none) ∧
    (∀ (depth2 : Nat) (maxR : Option Nat),
      shouldRedirect caps (some resp) { cfg with maxRedirects := maxR } depth2 =
        (f resp, none)) ∧
    (∀ (harConfig : HarConfig) (raw : RawExchange) (heap : HeaderHeap)
        (cache : Option String),
      f resp = false →
      captureEntry cfg harConfig raw = (none, some resp) →
      (captureEntries caps harConfig [raw] cfg heap cache 1).1.length = 1 ∧
      ((captureEntries caps harConfig [raw] cfg heap cache 1).1.head?).map
        (fun e => e.response._error) = some none) := by
  refine ⟨shouldRedirect_pred_eq caps cfg resp depth f hfr hloc, ?_, ?_⟩
  · intro depth2 maxR
    exact shouldRedirect_pred_eq caps { cfg with maxRedirects := maxR } resp depth2 f hfr hloc
  · intro harConfig raw heap cache hf hcap
    have hdec : hopDecision caps harConfig cfg raw 1 = (false, none) := by
      unfold hopDecision
      rw [hcap]
      have h2 : ((none, some resp) :
          Option TransportError × Option HttpResponse).2 = some resp := rfl
      rw [h2, shouldRedirect_pred_eq caps cfg resp 1 f hfr hloc, hf]
    rw [captureEntries_stop caps harConfig cfg raw [] heap cache 1 (by rw [hdec])]
    have herr : (hopEntry caps harConfig cfg raw heap cache 1).response._error = none := by
      rw [hopEntry_error, hcap]
      simp [hdec]
    exact ⟨rfl, by simp [herr]⟩

def witnessCfgPredFalse : RequestConfig :=
  { url := "http://a.example/", followRedirect := FollowRedirect.pred (fun _ => false) }

theorem shouldRedirect_predicate_witness :
    (captureEntries witnessCaps witnessHarConfig [witnessRaw301]
      witnessCfgPredFalse [] none 1).1.length = 1 ∧
    ((captureEntries witnessCaps witnessHarConfig [witnessRaw301]
      witnessCfgPredFalse [] none 1).1.head?).map
      (fun e => e.response._error) = some none :=
  (shouldRedirect_predicate witnessCaps witnessCfgPredFalse witnessRedirectResp 1
    (fun _ => false) rfl (by decide)).2.2 witnessHarConfig witnessRaw301 [] none rfl
    (by decide)

/-- C5: a response with status in [300,400) but no usable Location header
(the resolved redirect URL is empty) is not followed; the decision records
the NOLOCATION error, and a single such exchange produces one entry with
that code and an empty redirectURL. -/
theorem shouldRedirect_noLocation (caps : Capabilities) (cfg : RequestConfig)
    (resp : HttpResponse) (depth : Nat)
    (h3 : 300 ≤ resp.statusCode ∧ resp.statusCode < 400)
    (hloc : parseRedirectUrl caps (some resp) = "") :
    shouldRedirect caps (some resp) cfg depth = (false, some noLocationError) ∧
    noLocationError.code = "NOLOCATION" ∧
    (∀ (harConfig : HarConfig) (raw : RawExchange) (heap : HeaderHeap)
        (cache : Option String),
      captureEntry cfg harConfig raw = (none, some resp) →
      (captureEntries caps harConfig [raw] cfg heap cache 1).1.length = 1 ∧
      ((captureEntries caps harConfig [raw] cfg heap cache 1).1.head?).map
        (fun e => (e.response._error, e.response.redirectURL)) =
        some (some noLocationError, "")) := by
  have hnot : ¬ (resp.statusCode < 300 ∨ 400 ≤ resp.statusCode) := by omega
  have key : shouldRedirect caps (some resp) cfg depth = (false, some noLocationError) := by
    simp only [shouldRedirect]
    rw [if_neg hnot, if_pos hloc]
  have key1 : shouldRedirect caps (some resp) cfg 1 = (false, some noLocationError) := by
    simp only [shouldRedirect]
    rw [if_neg hnot, if_pos hloc]
  refine ⟨key, rfl, ?_⟩
  intro harConfig raw heap cache hcap
  have hdec : hopDecision caps harConfig cfg raw 1 = (false, some noLocationError) := by
    unfold hopDecision
    rw [hcap]
    have h2 : ((none, some resp) :
        Option TransportError × Option HttpResponse).2 = some resp := rfl
    rw [h2, key1]
  rw [captureEntries_stop caps harConfig cfg raw [] heap cache 1 (by rw [hdec])]
  have herr : (hopEntry caps harConfig cfg raw heap cache 1).response._error =
      some noLocationError := by
    rw [hopEntry_error, hcap]
    simp [hdec]
  have hred : (hopEntry caps harConfig cfg raw heap cache 1).response.redirectURL = "" := by
    rw [hopEntry_redirectURL, hcap]
    exact hloc
  exact ⟨rfl, by simp [herr, hred]⟩

def witnessNoLocResp : HttpResponse :=
  { statusCode := 302
    statusMessage := ""
    httpVersion := none
    headers := []
    body := none
    requestHref := "http://a.example/" }

def witnessRawNoLoc : RawExchange :=
  { response := some { statusCode := 302 } }

def witnessCfgPlain : RequestConfig := { url := "http://a.example/" }

theorem shouldRedirect_noLocation_witness :
    (captureEntries witnessCaps witnessHarConfig [witnessRawNoLoc]
      witnessCfgPlain [] none 1).1.length = 1 ∧
    ((captureEntries witnessCaps witnessHarConfig [witnessRawNoLoc]
      witnessCfgPlain [] none 1).1.head?).map
      (fun e => (e.response._error, e.response.redirectURL)) =
      some (some noLocationError, "") :=
  (shouldRedirect_noLocation witnessCaps witnessCfgPlain witnessNoLocResp 1
    (by decide) (by decide)).2.2 witnessHarConfig witnessRawNoLoc [] none (by decide)

theorem hopEntry_content (caps : Capabilities) (harConfig : HarConfig)
    (cfg : RequestConfig) (raw : RawExchange) (heap : HeaderHeap) (cache : Option String)
    (depth : Nat) :
    (hopEntry caps harConfig cfg raw heap cache depth).response.content =
      buildHarContent caps (captureEntry cfg harConfig raw).2 harConfig := rfl

theorem hopEntry_error_eq (caps : Capabilities) (harConfig : HarConfig)
    (cfg : RequestConfig) (raw : RawExchange) (heap : HeaderHeap) (cache : Option String)
    (depth : Nat) :
    (hopEntry caps harConfig cfg raw heap cache depth).response._error =
      (match (captureEntry cfg harConfig raw).1 with
        | some e => some ({ message := e.message, code := e.code } : TransportError)
        | none => ((hopDecision caps harConfig cfg raw depth).2).map
            (fun e => ({ message := e.message, code := e.code } : TransportError))) := by
  rw [hopEntry_error]
  cases (captureEntry cfg harConfig raw).1 <;> rfl

theorem shouldRedirect_snd_cases (caps : Capabilities) (response : Option HttpResponse)
    (cfg : RequestConfig) (depth : Nat) :
    (shouldRedirect caps response cfg depth).2 = none ∨
    (shouldRedirect caps response cfg depth).2 = some noLocationError ∨
    (shouldRedirect caps response cfg depth).2 = some maxRedirectsError := by
  cases response with
  | none => exact Or.inl rfl
  | some res =>
    simp only [shouldRedirect]
    by_cases h1 : res.statusCode < 300 ∨ 400 ≤ res.statusCode
    · rw [if_pos h1]
      exact Or.inl rfl
    · rw [if_neg h1]
      by_cases h2 : parseRedirectUrl caps (some res) = ""
      · rw [if_pos h2]
        exact Or.inr (Or.inl rfl)
      · rw [if_neg h2]
        cases hf : cfg.followRedirect with
        | default =>
          by_cases h3 : cfg.maxRedirects.getD 10 < depth
          · rw [if_pos h3]
            exact Or.inr (Or.inr rfl)
          · rw [if_neg h3]
            exact Or.inl rfl
        | flag b =>
          cases b with
          | false => exact Or.inl rfl
          | true =>
            by_cases h3 : cfg.maxRedirects.getD 10 < depth
            · rw [if_pos h3]
              exact Or.inr (Or.inr rfl)
            · rw [if_neg h3]
              exact Or.inl rfl
        | pred f => exact Or.inl rfl

theorem hopDecision_snd (caps : Capabilities) (harConfig : HarConfig)
    (cfg : RequestConfig) (raw : RawExchange) (depth : Nat) :
    (hopDecision caps harConfig cfg raw depth).2 = none ∨
    (hopDecision caps harConfig cfg raw depth).2 = some noLocationError ∨
    (hopDecision caps harConfig cfg raw depth).2 = some maxRedirectsError :=
  shouldRedirect_snd_cases caps (captureEntry cfg harConfig raw).2 cfg depth

theorem buildHarContent_text_none (caps : Capabilities) (harConfig : HarConfig)
    (response : Option HttpResponse) (hw : harConfig.withContent = false) :
    (buildHarContent caps response harConfig).text = none := by
  cases response with
  | none => rfl
  | some res =>
    simp only [buildHarContent, hw]
    cases hb : res.body with
    | none => rfl
    | some bv => cases bv <;> simp

/-- C6: with withContent true and a finite maxContentLength, a declared
Content-Length above the maximum or a cumulative streamed byte count
exceeding it aborts the transfer with the MAX_RES_BODY_SIZE error, which
the hop's entry then carries. -/
theorem captureEntry_max_body_size (caps : Capabilities) (cfg : RequestConfig)
    (harConfig : HarConfig) (raw : RawExchange) (res : RawResponse) (m : Nat)
    (hw : harConfig.withContent = true)
    (hm : harConfig.maxContentLength = some m)
    (hr : raw.response = some res)
    (hex : contentLengthExceeded res harConfig.maxContentLength = true ∨
      bufferExceeds res.chunks m = true) :
    (captureEntry cfg harConfig raw).1 = some maxResBodyError ∧
    maxResBodyError.code = "MAX_RES_BODY_SIZE" ∧
    (∀ (trace : List RawExchange) (heap : HeaderHeap) (cache : Option String)
        (depth : Nat),
      ((captureEntries caps harConfig (raw :: trace) cfg heap cache depth).1.head?).map
        (fun e => e.response._error) = some (some maxResBodyError)) := by
  have h1 : (captureEntry cfg harConfig raw).1 = some maxResBodyError := by
    by_cases hcl : contentLengthExceeded res harConfig.maxContentLength = true
    · simp [captureEntry, hr, hw, hcl]
    · have hbuf : bufferExceeds res.chunks m = true := by
        rcases hex with h | h
        · exact absurd h hcl
        · exact h
      simp [captureEntry, hr, hw, hcl, hm, hbuf]
  refine ⟨h1, rfl, ?_⟩
  intro trace heap cache depth
  cases hdec : (hopDecision caps harConfig cfg raw depth).1 with
  | false =>
    rw [captureEntries_stop _ _ _ _ _ _ _ _ hdec]
    simp [hopEntry_error_eq, h1]
  | true =>
    rw [captureEntries_follow _ _ _ _ _ _ _ _ hdec]
    simp [hopEntry_error_eq, h1]

def witnessRawBig : RawExchange :=
  { response := some
      { statusCode := 200
        headers := [("content-length", HeaderVal.one "10")] } }

def witnessHarSmall : HarConfig := { withContent := true, maxContentLength := some 5 }

def witnessCfgPlainB : RequestConfig := { url := "http://a.example/" }

theorem captureEntry_max_body_size_witness :
    (captureEntry witnessCfgPlainB witnessHarSmall witnessRawBig).1 =
      some maxResBodyError ∧
    ((captureEntries witnessCaps witnessHarSmall [witnessRawBig]
      witnessCfgPlainB [] none 1).1.head?).map
      (fun e => e.response._error) = some (some maxResBodyError) :=
  have h := captureEntry_max_body_size witnessCaps witnessCfgPlainB witnessHarSmall
    witnessRawBig { statusCode := 200, headers := [("content-length", HeaderVal.one "10")] }
    5 rfl rfl rfl (Or.inl (by decide))
  ⟨h.1, h.2.2 [] [] none 1⟩

/-- C7: with withContent false the body stream is destroyed as soon as the
head arrives: any response the hop resolves with has no body, a hop that
obtained a response carries no engine error, every entry's content lacks
the text field, and (as long as the transport itself does not use the code)
no entry ever carries a MAX_RES_BODY_SIZE error, whatever maxContentLength
is. -/
theorem captureEntry_withContent_false (caps : Capabilities) (harConfig : HarConfig)
    (hw : harConfig.withContent = false) :
    (∀ (cfg : RequestConfig) (raw : RawExchange) (resp : HttpResponse),
      (captureEntry cfg harConfig raw).2 = some resp → resp.body = none) ∧
    (∀ (cfg : RequestConfig) (raw : RawExchange) (res : RawResponse),
      raw.response = some res → (captureEntry cfg harConfig raw).1 = none) ∧
    (∀ (trace : List RawExchange) (cfg : RequestConfig) (heap : HeaderHeap)
        (cache : Option String) (depth : Nat),
      (∀ raw, raw ∈ trace → ∀ e, raw.connectError = some e →
        e.code ≠ "MAX_RES_BODY_SIZE") →
      ∀ entry, entry ∈ (captureEntries caps harConfig trace cfg heap cache depth).1 →
        entry.response.content.text = none ∧
        ∀ e, entry.response._error = some e → e.code ≠ "MAX_RES_BODY_SIZE") := by
  have hbody : ∀ (cfg : RequestConfig) (raw : RawExchange) (resp : HttpResponse),
      (captureEntry cfg harConfig raw).2 = some resp → resp.body = none := by
    intro cfg raw resp h
    cases hr : raw.response with
    | none =>
      rw [captureEntry, hr] at h
      cases h
    | some res =>
      simp [captureEntry, hr, hw] at h
      rw [← h]
  have hfst : ∀ (cfg : RequestConfig) (raw : RawExchange) (res : RawResponse),
      raw.response = some res → (captureEntry cfg harConfig raw).1 = none := by
    intro cfg raw res hr
    simp [captureEntry, hr, hw]
  have hentry : ∀ (cfg : RequestConfig) (raw : RawExchange) (heap : HeaderHeap)
      (cache : Option String) (depth : Nat),
      (∀ e, raw.connectError = some e → e.code ≠ "MAX_RES_BODY_SIZE") →
      (hopEntry caps harConfig cfg raw heap cache depth).response.content.text = none ∧
      ∀ e, (hopEntry caps harConfig cfg raw heap cache depth).response._error = some e →
        e.code ≠ "MAX_RES_BODY_SIZE" := by
    intro cfg raw heap cache depth hconn
    constructor
    · rw [hopEntry_content]
      exact buildHarContent_text_none caps harConfig _ hw
    · intro e he
      rw [hopEntry_error_eq] at he
      cases hr : raw.response with
      | some res =>
        rw [hfst cfg raw res hr] at he
        rcases hopDecision_snd caps harConfig cfg raw depth with hs | hs | hs
        · rw [hs] at he
          simp at he
        · rw [hs] at he
          simp at he
          subst he
          decide
        · rw [hs] at he
          simp at he
          subst he
          decide
      | none =>
        have h1 : (captureEntry cfg harConfig raw).1 = raw.connectError := by
          simp [captureEntry, hr]
        rw [h1] at he
        cases hce : raw.connectError with
        | none =>
          rw [hce] at he
          rcases hopDecision_snd caps harConfig cfg raw depth with hs | hs | hs
          · rw [hs] at he
            simp at he
          · rw [hs] at he
            simp at he
            subst he
            decide
          · rw [hs] at he
            simp at he
            subst he
            decide
        | some e0 =>
          rw [hce] at he
          simp at he
          subst he
          exact hconn e0 hce
  refine ⟨hbody, hfst, ?_⟩
  intro trace
  induction trace with
  | nil =>
    intro cfg heap cache depth hc entry hmem
    simp [captureEntries] at hmem
  | cons raw rest ih =>
    intro cfg heap cache depth hc entry hmem
    have hconn : ∀ e, raw.connectError = some e → e.code ≠ "MAX_RES_BODY_SIZE" :=
      fun e he => hc raw (List.mem_cons_self _ _) e he
    have hcrest : ∀ raw2, raw2 ∈ rest → ∀ e, raw2.connectError = some e →
        e.code ≠ "MAX_RES_BODY_SIZE" :=
      fun raw2 h2 e he => hc raw2 (List.mem_cons_of_mem _ h2) e he
    cases hdec : (hopDecision caps harConfig cfg raw depth).1 with
    | false =>
      rw [captureEntries_stop _ _ _ _ _ _ _ _ hdec] at hmem
      simp at hmem
      subst hmem
      exact hentry cfg raw heap cache depth hconn
    | true =>
      rw [captureEntries_follow _ _ _ _ _ _ _ _ hdec] at hmem
      simp only [List.mem_cons] at hmem
      rcases hmem with hmem | hmem
      · subst hmem
        exact hentry cfg raw heap cache depth hconn
      · exact ih _ _ _ _ hcrest entry hmem

def witnessHarNoContent : HarConfig := { withContent := false, maxContentLength := some 1 }

def witnessRawBody : RawExchange :=
  { response := some
      { statusCode := 200
        headers := [("content-length", HeaderVal.one "10")]
        chunks := [[1, 2, 3], [4, 5, 6]]
        body := some (BodyValue.str "sixbyt") } }

theorem captureEntry_withContent_false_witness :
    (captureEntry witnessCfgPlainB witnessHarNoContent witnessRawBody).1 = none ∧
    ∀ entry, entry ∈ (captureEntries witnessCaps witnessHarNoContent [witnessRawBody]
        witnessCfgPlainB [] none 1).1 →
      entry.response.content.text = none ∧
      ∀ e, entry.response._error = some e → e.code ≠ "MAX_RES_BODY_SIZE" :=
  have h := captureEntry_withContent_false witnessCaps witnessHarNoContent rfl
  ⟨h.2.1 witnessCfgPlainB witnessRawBody
      { statusCode := 200
        headers := [("content-length", HeaderVal.one "10")]
        chunks := [[1, 2, 3], [4, 5, 6]]
        body := some (BodyValue.str "sixbyt") } rfl,
    h.2.2 [witnessRawBody] witnessCfgPlainB [] none 1
      (fun raw hmem e he => by
        simp [witnessRawBody] at hmem
        subst hmem
        simp [witnessRawBody] at he)⟩

/-- C1: captureHar is total (it resolves for every config and trace by
construction), and when the transport fails with no response at all the log
still contains exactly one entry whose response.status is -1 and whose
response._error carries the failure's message and code verbatim. -/
theorem captureHar_transport_error_entry (caps : Capabilities)
    (requestConfig : Sum String RequestConfig) (harConfig : HarConfigInput)
    (heap : HeaderHeap) (e : TransportError) (addr : Option String) (st dur : Nat) :
    (captureHar caps
      [{ response := none, connectError := some e, resolvedAddress := addr,
         startTime := st, duration := dur }]
      requestConfig harConfig heap).log.entries.length = 1 ∧
    ((captureHar caps
      [{ response := none, connectError := some e, resolvedAddress := addr,
         startTime := st, duration := dur }]
      requestConfig harConfig heap).log.entries.head?).map
      (fun entry => (entry.response.status, entry.response._error)) =
      some (-1, some { message := e.message, code := e.code }) := by
  have hcap : captureEntry (buildRequestConfig requestConfig) (buildHarConfig harConfig)
      { response := none, connectError := some e, resolvedAddress := addr,
        startTime := st, duration := dur } = (some e, none) := by
    simp [captureEntry]
  have hdec : hopDecision caps (buildHarConfig harConfig)
      (buildRequestConfig requestConfig)
      { response := none, connectError := some e, resolvedAddress := addr,
        startTime := st, duration := dur } 1 = (false, none) := by
    unfold hopDecision
    rw [hcap]
    rfl
  have hentries : (captureHar caps
      [{ response := none, connectError := some e, resolvedAddress := addr,
         startTime := st, duration := dur }]
      requestConfig harConfig heap).log.entries =
      [hopEntry caps (buildHarConfig harConfig) (buildRequestConfig requestConfig)
        { response := none, connectError := some e, resolvedAddress := addr,
          startTime := st, duration := dur } heap none 1] := by
    show (captureEntries caps (buildHarConfig harConfig) _ _ heap none 1).1 = _
    rw [captureEntries_stop _ _ _ _ _ _ _ _ (by rw [hdec])]
  rw [hentries]
  refine ⟨rfl, ?_⟩
  have hstatus : (hopEntry caps (buildHarConfig harConfig)
      (buildRequestConfig requestConfig)
      { response := none, connectError := some e, resolvedAddress := addr,
        startTime := st, duration := dur } heap none 1).response.status = -1 := by
    show (buildHarResponse caps _ (captureEntry _ _ _).2 _ _).status = -1
    rw [hcap]
    rfl
  have herror : (hopEntry caps (buildHarConfig harConfig)
      (buildRequestConfig requestConfig)
      { response := none, connectError := some e, resolvedAddress := addr,
        startTime := st, duration := dur } heap none 1).response._error =
      some { message := e.message, code := e.code } := by
    rw [hopEntry_error_eq, hcap]
  simp [hstatus, herror]

/-- Config of the next hop when a redirect is followed (lines 336-339):
only the url is replaced, by the hop's resolved redirect target. -/
def nextHopConfig (caps : Capabilities) (harConfig : HarConfig) (cfg : RequestConfig)
    (raw : RawExchange) : RequestConfig :=
  { cfg with url := parseRedirectUrl caps (captureEntry cfg harConfig raw).2 }

/-- Trace on which the engine follows every hop but the last and stops at
the last: the depth-indexed decisions the engine itself takes along the
derived configs.  A chain of N followed redirects is such a trace of length
N + 1. -/
inductive RedirectChain (caps : Capabilities) (harConfig : HarConfig) :
    RequestConfig → Nat → List RawExchange → Prop where
  | last (cfg : RequestConfig) (depth : Nat) (raw : RawExchange)
      (hstop : (hopDecision caps harConfig cfg raw depth).1 = false) :
      RedirectChain caps harConfig cfg depth [raw]
  | follow (cfg : RequestConfig) (depth : Nat) (raw : RawExchange)
      (rest : List RawExchange)
      (hgo : (hopDecision caps harConfig cfg raw depth).1 = true)
      (hrest : RedirectChain caps harConfig (nextHopConfig caps harConfig cfg raw)
        (depth + 1) rest) :
      RedirectChain caps harConfig cfg depth (raw :: rest)

theorem captureEntries_head_url (caps : Capabilities) (harConfig : HarConfig)
    (raw : RawExchange) (rest : List RawExchange) (cfg : RequestConfig)
    (heap : HeaderHeap) (cache : Option String) (depth : Nat) :
    (((captureEntries caps harConfig (raw :: rest) cfg heap cache depth).1).head?).map
      (fun e => e.request.url) = some cfg.url := by
  cases hdec : (hopDecision caps harConfig cfg raw depth).1 with
  | false =>
    rw [captureEntries_stop _ _ _ _ _ _ _ _ hdec]
    simp [hopEntry_request_url]
  | true =>
    rw [captureEntries_follow _ _ _ _ _ _ _ _ hdec]
    simp [hopEntry_request_url]

theorem redirectStep_nextHopConfig (caps : Capabilities) (harConfig : HarConfig)
    (cfg : RequestConfig) (raw : RawExchange) (heap : HeaderHeap) (cache : Option String)
    (depth : Nat) :
    (redirectStep caps cfg
      (hopEntry caps harConfig cfg raw heap cache depth).response.redirectURL heap).1 =
      nextHopConfig caps harConfig cfg raw := by
  rw [redirectStep_fst, hopEntry_redirectURL]
  rfl

theorem captureEntries_adjacent (caps : Capabilities) (harConfig : HarConfig) :
    ∀ (trace : List RawExchange) (cfg : RequestConfig) (heap : HeaderHeap)
      (cache : Option String) (depth : Nat) (i : Nat) (e1 e2 : HarEntry),
      ((captureEntries caps harConfig trace cfg heap cache depth).1)[i]? = some e1 →
      ((captureEntries caps harConfig trace cfg heap cache depth).1)[i + 1]? = some e2 →
      e1.response.redirectURL = e2.request.url
  | [], cfg, heap, cache, depth, i, e1, e2 => by
    intro h1 _
    simp [captureEntries] at h1
  | raw :: rest, cfg, heap, cache, depth, i, e1, e2 => by
    intro h1 h2
    cases hdec : (hopDecision caps harConfig cfg raw depth).1 with
    | false =>
      rw [captureEntries_stop _ _ _ _ _ _ _ _ hdec] at h1 h2
      cases i with
      | zero => simp at h2
      | succ n => simp at h1
    | true =>
      rw [captureEntries_follow _ _ _ _ _ _ _ _ hdec] at h1 h2
      cases i with
      | zero =>
        simp only [List.getElem?_cons_zero, List.getElem?_cons_succ,
          Option.some.injEq] at h1 h2
        subst h1
        cases rest with
        | nil =>
          simp [captureEntries] at h2
        | cons raw2 rest2 =>
          have hu := captureEntries_head_url caps harConfig raw2 rest2
            (redirectStep caps cfg
              (hopEntry caps harConfig cfg raw heap cache depth).response.redirectURL
              heap).1
            (redirectStep caps cfg
              (hopEntry caps harConfig cfg raw heap cache depth).response.redirectURL
              heap).2
            (hopCache raw cache) (depth + 1)
          rw [List.head?_eq_getElem?, h2] at hu
          simp at hu
          rw [hu, redirectStep_fst]
      | succ n =>
        simp only [List.getElem?_cons_succ] at h1 h2
        exact captureEntries_adjacent caps harConfig rest _ _ _ _ n e1 e2 h1 h2

theorem captureEntries_chain_length (caps : Capabilities) (harConfig : HarConfig)
    {cfg : RequestConfig} {depth : Nat} {trace : List RawExchange}
    (h : RedirectChain caps harConfig cfg depth trace) :
    ∀ (heap : HeaderHeap) (cache : Option String),
      ((captureEntries caps harConfig trace cfg heap cache depth).1).length =
        trace.length := by
  induction h with
  | last cfg depth raw hstop =>
    intro heap cache
    rw [captureEntries_stop _ _ _ _ _ _ _ _ hstop]
    rfl
  | follow cfg depth raw rest hgo hrest ih =>
    intro heap cache
    rw [captureEntries_follow _ _ _ _ _ _ _ _ hgo]
    simp only [List.length_cons, redirectStep_nextHopConfig, ih]

/-- C2: the entry list of a completed capture is nonempty whenever the
transport delivered at least one hop, consecutive entries always satisfy
entries[i].response.redirectURL = entries[i+1].request.url (entries are
produced in hop order, each follow contributing the next entry), and on a
trace where the engine follows every hop but the last (N redirects
followed, trace length N + 1) the log has exactly N + 1 entries. -/
theorem captureEntries_chain_shape (caps : Capabilities) (harConfig : HarConfig)
    (trace : List RawExchange) (cfg : RequestConfig) (heap : HeaderHeap)
    (cache : Option String) (depth : Nat) :
    (trace ≠ [] →
      1 ≤ ((captureEntries caps harConfig trace cfg heap cache depth).1).length) ∧
    (∀ (i : Nat) (e1 e2 : HarEntry),
      ((captureEntries caps harConfig trace cfg heap cache depth).1)[i]? = some e1 →
      ((captureEntries caps harConfig trace cfg heap cache depth).1)[i + 1]? = some e2 →
      e1.response.redirectURL = e2.request.url) ∧
    (RedirectChain caps harConfig cfg depth trace →
      ((captureEntries caps harConfig trace cfg heap cache depth).1).length =
        trace.length) := by
  refine ⟨?_, ?_, ?_⟩
  · intro hne
    cases trace with
    | nil => exact absurd rfl hne
    | cons raw rest =>
      cases hdec : (hopDecision caps harConfig cfg raw depth).1 with
      | false =>
        rw [captureEntries_stop _ _ _ _ _ _ _ _ hdec]
        simp
      | true =>
        rw [captureEntries_follow _ _ _ _ _ _ _ _ hdec]
        simp
  · exact captureEntries_adjacent caps harConfig trace cfg heap cache depth
  · intro hch
    exact captureEntries_chain_length caps harConfig hch heap cache

def witnessRawOk : RawExchange := { response := some { statusCode := 200 } }

theorem captureEntries_chain_shape_witness :
    1 ≤ ((captureEntries witnessCaps witnessHarConfig [witnessRaw301, witnessRawOk]
      witnessCfgPlain [] none 1).1).length ∧
    ((captureEntries witnessCaps witnessHarConfig [witnessRaw301, witnessRawOk]
      witnessCfgPlain [] none 1).1).length = 2 ∧
    (((captureEntries witnessCaps witnessHarConfig [witnessRaw301, witnessRawOk]
      witnessCfgPlain [] none 1).1)[0]?).map (fun e => e.response.redirectURL) =
      (((captureEntries witnessCaps witnessHarConfig [witnessRaw301, witnessRawOk]
        witnessCfgPlain [] none 1).1)[1]?).map (fun e => e.request.url) := by
  have h := captureEntries_chain_shape witnessCaps witnessHarConfig
    [witnessRaw301, witnessRawOk] witnessCfgPlain [] none 1
  have hchain : RedirectChain witnessCaps witnessHarConfig witnessCfgPlain 1
      [witnessRaw301, witnessRawOk] :=
    RedirectChain.follow _ _ _ _ (by decide) (RedirectChain.last _ _ _ (by decide))
  have hlen := h.2.2 hchain
  refine ⟨h.1 (List.cons_ne_nil _ _), hlen, ?_⟩
  cases h0 : ((captureEntries witnessCaps witnessHarConfig [witnessRaw301, witnessRawOk]
      witnessCfgPlain [] none 1).1)[0]? with
  | none =>
    rw [List.getElem?_eq_none_iff, hlen] at h0
    simp at h0
  | some e1 =>
    cases h1 : ((captureEntries witnessCaps witnessHarConfig
        [witnessRaw301, witnessRawOk] witnessCfgPlain [] none 1).1)[1]? with
    | none =>
      rw [List.getElem?_eq_none_iff, hlen] at h1
      simp at h1
    | some e2 =>
      simp [h.2.1 0 e1 e2 h0 h1]

/-- C9 counterexample: one followed redirect with a caller-set Host header.
The original config references heap cell 0; `Object.assign`'s shallow copy
shares that headers object with the derived config, and the Host rewrite of
line 343 mutates it in place, so after the capture the caller's original
headers mapping reads Host = b.example instead of its original value —
against the claim that the caller's original config and its headers mapping
are left unchanged. -/
theorem redirect_mutates_caller_headers :
    heapGet (captureEntries witnessCaps witnessHarConfig [witnessRaw301, witnessRawOk]
      { url := "http://a.example/", headersRef := some 0 }
      [[("Host", "a.example")]] none 1).2 0 = [("Host", "b.example")] ∧
    heapGet (captureEntries witnessCaps witnessHarConfig [witnessRaw301, witnessRawOk]
      { url := "http://a.example/", headersRef := some 0 }
      [[("Host", "a.example")]] none 1).2 0 ≠ [("Host", "a.example")] := by
  decide

/-- C9 (amended): on following a redirect the next hop's config is the
previous one with only the url replaced by the resolved target; when the
config's headers object has a Host key (any capitalization) that header is
rewritten to the new target's host — but the rewrite acts on the headers
object the derived config shares with the caller's original config, so the
original config's headers mapping observes the rewritten Host as well
(it is not left unchanged); without a custom Host header the heap is
untouched. -/
theorem redirectStep_shared_headers (caps : Capabilities) (cfg : RequestConfig)
    (u : String) (heap : HeaderHeap) :
    (redirectStep caps cfg u heap).1 = { cfg with url := u } ∧
    (getCustomHostHeaderName heap cfg = none → (redirectStep caps cfg u heap).2 = heap) ∧
    (∀ (ref : Nat) (name : String), cfg.headersRef = some ref →
      getCustomHostHeaderName heap cfg = some name →
      heapGet (redirectStep caps cfg u heap).2 ref =
        setHeaderKey (heapGet heap ref) name (caps.parseHost u)) := by
  refine ⟨redirectStep_fst caps cfg u heap, ?_, ?_⟩
  · intro hnone
    simp [redirectStep, hnone]
  · intro ref name href hname
    have hfind : ∃ kv, (heapGet heap ref).find?
        (fun kv => lowerCase kv.1 == "host") = some kv := by
      simp only [getCustomHostHeaderName, href] at hname
      cases hf : (heapGet heap ref).find? (fun kv => lowerCase kv.1 == "host") with
      | none => simp [hf] at hname
      | some kv => exact ⟨kv, rfl⟩
    have hne : heapGet heap ref ≠ [] := by
      rcases hfind with ⟨kv, hkv⟩
      intro hnil
      rw [hnil] at hkv
      cases hkv
    have hlt : ref < heap.length := by
      by_contra hge
      apply hne
      show (heap.get? ref).getD [] = []
      rw [List.get?_eq_getElem?, List.getElem?_eq_none_iff.mpr (by omega)]
      rfl
    simp only [redirectStep, hname, heapSetHeader, href]
    show ((heap.set ref (setHeaderKey (heapGet heap ref) name (caps.parseHost u))).get?
      ref).getD [] = _
    rw [List.get?_eq_getElem?, List.getElem?_set_eq_of_lt _ hlt]
    rfl

theorem redirectStep_shared_headers_witness :
    heapGet (redirectStep witnessCaps
      { url := "http://a.example/", headersRef := some 0 }
      "http://b.example/x" [[("Host", "a.example")]]).2 0 =
      setHeaderKey [("Host", "a.example")] "Host"
        (witnessCaps.parseHost "http://b.example/x") :=
  (redirectStep_shared_headers witnessCaps
    { url := "http://a.example/", headersRef := some 0 }
    "http://b.example/x" [[("Host", "a.example")]]).2.2 0 "Host" rfl (by decide)

end CaptureHar
